import Mathlib

/-!
Shallow embedding of the TrailMate trail-and-weather retrieval pipeline
(`tools/trails_api.py`, `tools/weather_data.py`, `tools/geocode.py`,
`tools/pipeline.py`).

Modelling conventions: Python floats are exact rationals, JSON `null` and
missing dict keys are `Option`, raised exceptions are `Except` values, and
each outbound HTTP call is an oracle parameter mapping the request
parameters the code sends to the decoded response body (or to an error
standing for a non-success HTTP status / `raise_for_status`).
-/

namespace TrailMate

/-- Error taxonomy of the spec: `validation` and `notFound` are the two kinds
of `ValueError` the code raises locally (distinguished by message), and
`upstream` wraps a failed HTTP call. -/
inductive Err where
  | validation : String → Err
  | notFound : String → Err
  | upstream : String → Err
deriving DecidableEq

/-- Recognizer for the `ValidationError` kind. -/
def Err.isValidation : Err → Bool
  | .validation _ => true
  | _ => false

/-- Recognizer for the `NotFoundError` kind. -/
def Err.isNotFound : Err → Bool
  | .notFound _ => true
  | _ => false

/-- Python `int(x)` applied to a float: truncation toward zero. -/
def pyTrunc (q : ℚ) : ℤ := if 0 ≤ q then ⌊q⌋ else ⌈q⌉

/-- Python `round(x)` to an integer: round half to even. -/
def roundHalfEven (q : ℚ) : ℤ :=
  if q - ⌊q⌋ < 1/2 then ⌊q⌋
  else if (1 : ℚ)/2 < q - ⌊q⌋ then ⌊q⌋ + 1
  else if 2 ∣ ⌊q⌋ then ⌊q⌋ else ⌊q⌋ + 1

/-- Python `round(x, 5)` modelled on exact rationals. -/
def round5 (q : ℚ) : ℚ := (roundHalfEven (q * 100000) : ℚ) / 100000

/-- Python `round(x, 1)` modelled on exact rationals. -/
def round1 (q : ℚ) : ℚ := (roundHalfEven (q * 10) : ℚ) / 10

/-- Python `a or b` on optional strings: `None` and `""` are falsy. -/
def pyOrS (a b : Option String) : Option String :=
  match a with
  | some s => if s = "" then b else some s
  | none => b

/-! ## Trail Finder (`tools/trails_api.py`) -/

/-- The OSM tags read by `_normalize`; a missing key is `none`.  `nameEn`
stands for the `name:en` tag. -/
structure Tags where
  name : Option String
  nameEn : Option String
  ref : Option String
  route : Option String
  sac_scale : Option String
  surface : Option String
deriving DecidableEq

/-- The `center` sub-object of a raw Overpass element. -/
structure Center where
  lat : Option ℚ
  lon : Option ℚ
deriving DecidableEq

/-- A raw Overpass element as read by `_normalize` through `el.get(...)`. -/
structure Element where
  type : Option String
  id : Option Int
  tags : Option Tags
  center : Option Center
deriving DecidableEq

/-- Normalized trail-feature dict produced by `_normalize`.  Coordinates are
optional because downstream code reads them with `dict.get`. -/
structure Trail where
  id : Option Int
  osm_type : Option String
  name : String
  route_type : Option String
  lat : Option ℚ
  lon : Option ℚ
  difficulty : Option String
  surface : Option String
deriving DecidableEq

/-- Identity key of a trail feature. -/
def trailKey (t : Trail) : Option String × Option Int := (t.osm_type, t.id)

/-- The all-absent tag record (`el.get("tags") or {}` on a falsy value). -/
def emptyTags : Tags := ⟨none, none, none, none, none, none⟩

/-- Tags of an element with the Python `or {}` default applied. -/
def Element.tagsD (el : Element) : Tags := el.tags.getD emptyTags

/-- Python string interpolation of the optional element id. -/
def optIntStr : Option Int → String
  | some i => toString i
  | none => "None"

/-- The synthesized stable name `"Way <id>"` / `"Route <id>"`. -/
def synthName (el : Element) : String :=
  (if el.type = some "way" then "Way " else "Route ") ++ optIntStr el.id

/-- Name fallback chain of `_normalize`: `name or name:en or ref or route`,
falling back to the synthesized name when the chain is falsy. -/
def elName (el : Element) : String :=
  match pyOrS el.tagsD.name (pyOrS el.tagsD.nameEn (pyOrS el.tagsD.ref el.tagsD.route)) with
  | some s => if s = "" then synthName el else s
  | none => synthName el

/-- Center latitude read through `el.get("center") or {}`. -/
def elCenterLat (el : Element) : Option ℚ :=
  match el.center with
  | some c => c.lat
  | none => none

/-- Center longitude read through `el.get("center") or {}`. -/
def elCenterLon (el : Element) : Option ℚ :=
  match el.center with
  | some c => c.lon
  | none => none

/-- One output dict of the `_normalize` loop body, given resolved center
coordinates. -/
def mkTrail (el : Element) (la lo : ℚ) : Trail :=
  { id := el.id
    osm_type := el.type
    name := elName el
    route_type := if el.type = some "relation" then el.tagsD.route else none
    lat := some (round5 la)
    lon := some (round5 lo)
    difficulty := el.tagsD.sac_scale
    surface := el.tagsD.surface }

/-- The `out` list built by the first loop of `_normalize`: raw elements
without resolved center coordinates are skipped (`continue`). -/
def preNormalize : List Element → List Trail
  | [] => []
  | el :: rest =>
    match elCenterLat el, elCenterLon el with
    | some la, some lo => mkTrail el la lo :: preNormalize rest
    | _, _ => preNormalize rest

/-- The dedup loop of `_normalize`: keep the first occurrence of each
`(osm_type, id)` key; the `seen` argument models the Python `seen` set. -/
def dedupKeys (seen : List (Option String × Option Int)) : List Trail → List Trail
  | [] => []
  | t :: ts =>
    if trailKey t ∈ seen then dedupKeys seen ts
    else t :: dedupKeys (trailKey t :: seen) ts

/-- `_normalize` (`tools/trails_api.py` lines 36-70): build, dedup by key,
then keep the first 20 entries. -/
def pyNormalize (elements : List Element) : List Trail :=
  (dedupKeys [] (preNormalize elements)).take 20

/-- `_clamp_radius_km`. -/
def clamp_radius_km (r : ℚ) : ℚ := max (1/2) (min r 60)

/-- `get_trails_near`: the Overpass POST is the oracle `http`, applied to the
latitude, longitude and radius in metres that the code interpolates into the
query.  The `hard_only` / `natural_only` flags only alter the generated query
text and are absorbed into the oracle. -/
def get_trails_near (lat lon radius_km : ℚ)
    (http : ℚ → ℚ → ℤ → Except String (List Element)) : Except Err (List Trail) :=
  let radius_m := pyTrunc (clamp_radius_km radius_km * 1000)
  match http lat lon radius_m with
  | .error e => .error (.upstream e)
  | .ok els => .ok (pyNormalize els)

/-- `get_trails_in_bbox`, instrumented with the number of outbound HTTP calls
made (second component) so that "validated before any outbound call" is a
statable property. -/
def get_trails_in_bbox (min_lat min_lon max_lat max_lon : ℚ)
    (http : Except String (List Element)) : Except Err (List Trail) × Nat :=
  if min_lat > max_lat ∨ min_lon > max_lon then
    (.error (.validation "Invalid bbox."), 0)
  else
    match http with
    | .error e => (.error (.upstream e), 1)
    | .ok els => (.ok (pyNormalize els), 1)

/-! ## Weather Fetcher (`tools/weather_data.py`) -/

/-- A JSON number field that may be `null`. -/
abbrev JNum := Option ℚ

/-- The four hourly series kept by `_slim_weather`; a `none` field models an
absent key in the upstream JSON object. -/
structure HourlyData where
  time : Option (List String)
  temperature_2m : Option (List JNum)
  precipitation_probability : Option (List JNum)
  precipitation : Option (List JNum)
deriving DecidableEq

/-- An Open-Meteo response body as read by `_slim_weather`
(`data.get("hourly", {})`; an absent `hourly` key is the all-`none` record). -/
structure MeteoData where
  hourly : HourlyData
deriving DecidableEq

/-- `_clamp_hours`. -/
def clamp_hours (h : ℤ) : ℤ := max 1 (min h 24)

/-- The truncation step of `_slim_weather`: every present series is cut to
its first `hours` entries (`hourly[k][:hours]`). -/
def slimHourly (d : MeteoData) (hours : ℕ) : HourlyData :=
  { time := d.hourly.time.map (List.take hours)
    temperature_2m := d.hourly.temperature_2m.map (List.take hours)
    precipitation_probability := d.hourly.precipitation_probability.map (List.take hours)
    precipitation := d.hourly.precipitation.map (List.take hours) }

/-- The summary block of a slimmed forecast. -/
structure Summary where
  min_temp : ℚ
  max_temp : ℚ
  any_precip : Bool
  max_precip_prob : JNum
deriving DecidableEq

/-- A slimmed forecast: truncated series plus the optional summary. -/
structure SlimWeather where
  hourly : HourlyData
  summary : Option Summary
deriving DecidableEq

/-- One comparison step of Python `min`/`max` over possibly-`null` values:
comparing `None` with anything raises `TypeError`. -/
def pyExtStep (f : ℚ → ℚ → ℚ) : JNum → JNum → Except Unit JNum
  | some b, some x => .ok (some (f b x))
  | _, _ => .error ()

/-- Python `min`/`max` over a list of possibly-`null` values: an empty list
raises, a singleton is returned without any comparison, and a `null` in a
longer list raises. -/
def pyExtreme (f : ℚ → ℚ → ℚ) : List JNum → Except Unit JNum
  | [] => .error ()
  | v :: rest => rest.foldlM (pyExtStep f) v

/-- Python `round(x, 1)` inside the summary: rounding `None` raises. -/
def pyRound1 : JNum → Except Unit ℚ
  | some q => .ok (round1 q)
  | none => .error ()

/-- The dict-building body of the `try` block in `_slim_weather` (entered
only when `temps` is nonempty); any raised exception becomes `.error`. -/
def summaryCalc (temps precp pprob : List JNum) : Except Unit Summary := do
  let mn ← pyExtreme min temps
  let mnr ← pyRound1 mn
  let mx ← pyExtreme max temps
  let mxr ← pyRound1 mx
  let anyP : Bool := decide (0 < (precp.filter (fun v => decide (0 < v.getD 0))).length)
  let mpp ← if pprob.isEmpty then pure (some (0 : ℚ)) else pyExtreme max pprob
  pure { min_temp := mnr, max_temp := mxr, any_precip := anyP, max_precip_prob := mpp }

/-- `_slim_weather` (`tools/weather_data.py` lines 19-50). -/
def slim_weather (data : MeteoData) (hours : ℤ) : SlimWeather :=
  let h := (clamp_hours hours).toNat
  let oh := slimHourly data h
  let temps := oh.temperature_2m.getD []
  let precp := oh.precipitation.getD []
  let pprob := oh.precipitation_probability.getD []
  { hourly := oh
    summary :=
      if temps.isEmpty then none
      else
        match summaryCalc temps precp pprob with
        | .ok s => some s
        | .error _ => none }

/-- `get_weather`: clamp `hours`, issue one GET (the oracle applied to the
coordinates and the clamped `forecast_hours` parameter), slim the body. -/
def get_weather (lat lon : ℚ) (hours : ℤ)
    (http : ℚ → ℚ → ℤ → Except String MeteoData) : Except Err SlimWeather :=
  let h := clamp_hours hours
  match http lat lon h with
  | .error e => .error (.upstream e)
  | .ok data => .ok (slim_weather data h)

/-! ## Trail Matcher: `difflib` core and `_pick_by_name` -/

/-- Length of the longest common prefix of two character lists. -/
def commonPrefixLen : List Char → List Char → ℕ
  | a :: as, b :: bs => if a = b then commonPrefixLen as bs + 1 else 0
  | _, _ => 0

/-- Length of the matching run starting at positions `i`, `j`, capped to the
window `[alo, ahi) x [blo, bhi)` of `find_longest_match`. -/
def runLen (a b : List Char) (ahi bhi i j : ℕ) : ℕ :=
  min (commonPrefixLen (a.drop i) (b.drop j)) (min (ahi - i) (bhi - j))

/-- `SequenceMatcher.find_longest_match` without junk (for a query shorter
than 200 characters the autojunk heuristic never fires, and then the
non-junk extension loops of CPython are no-ops): the longest matching block
in the window, ties resolved to the smallest start in `a`, then the smallest
start in `b`, which is exactly what the CPython `j2len` dynamic program
discovers first. -/
def findLongestMatch (a b : List Char) (alo ahi blo bhi : ℕ) : ℕ × ℕ × ℕ :=
  let cands := (List.range' alo (ahi - alo)).flatMap (fun i =>
    (List.range' blo (bhi - blo)).map (fun j => (i, j, runLen a b ahi bhi i j)))
  cands.foldl (fun best c => if best.2.2 < c.2.2 then c else best) (alo, blo, 0)

/-- Total size of the matching blocks (`get_matching_blocks`: take the
longest block, recurse on the window to its left and to its right).  The
fuel argument dominates the window width `ahi - alo`, which strictly shrinks
at every recursive call, so with fuel `ahi - alo` the sum is untruncated;
when fuel hits zero the window is empty and the returned 0 agrees with the
recursion. -/
def matchSumF (a b : List Char) : ℕ → ℕ → ℕ → ℕ → ℕ → ℕ
  | 0, _, _, _, _ => 0
  | fuel + 1, alo, ahi, blo, bhi =>
    match findLongestMatch a b alo ahi blo bhi with
    | (i, j, k) =>
      if k = 0 then 0
      else matchSumF a b fuel alo i blo j + k + matchSumF a b fuel (i + k) ahi (j + k) bhi

/-- Total matched size between the full strings. -/
def matchSum (a b : List Char) : ℕ := matchSumF a b a.length 0 a.length 0 b.length

/-- `SequenceMatcher.ratio()` as an exact rational: `2*M / (len(a)+len(b))`,
and `1` when both strings are empty (`_calculate_ratio`). -/
def ratioQ (x w : String) : ℚ :=
  let la := x.data.length
  let lb := w.data.length
  if la + lb = 0 then 1
  else (2 * matchSum x.data w.data : ℚ) / (la + lb)

/-- Code-point lexicographic strict comparison of character lists, the order
Python uses on strings. -/
def lexLtCh : List Char → List Char → Bool
  | [], [] => false
  | [], _ :: _ => true
  | _ :: _, [] => false
  | a :: as, b :: bs => if a < b then true else if b < a then false else lexLtCh as bs

/-- Python ordering on `(ratio, name)` score pairs: compare the rationals,
then the strings. -/
def pairLt (p q : ℚ × String) : Prop :=
  p.1 < q.1 ∨ (p.1 = q.1 ∧ lexLtCh p.2.data q.2.data = true)

instance : DecidableRel pairLt := fun p q => by
  unfold pairLt; infer_instance

/-- `heapq.nlargest(1, result)` on score pairs: the greatest pair under the
Python tuple order (the first of them when duplicated, which then carries
the same name string). -/
def nlargest1 : List (ℚ × String) → Option (ℚ × String)
  | [] => none
  | p :: ps => some (ps.foldl (fun best c => if pairLt best c then c else best) p)

/-- The `result` list of `get_close_matches`: each possibility whose ratio
passes the cutoff, paired with its score. -/
def fuzzyPairs (word : String) (possibilities : List String) : List (ℚ × String) :=
  possibilities.filterMap (fun x =>
    if (3 : ℚ)/5 ≤ ratioQ x word then some (ratioQ x word, x) else none)

/-- `difflib.get_close_matches(word, possibilities, n=1, cutoff=0.6)`.  The
`real_quick_ratio` / `quick_ratio` prefilters of CPython are upper bounds of
`ratio` and cannot change the accepted set, so membership is
`ratio >= 0.6` directly. -/
def getCloseMatches1 (word : String) (possibilities : List String) : List String :=
  match nlargest1 (fuzzyPairs word possibilities) with
  | some rx => [rx.2]
  | none => []

/-- Python `str.strip()`: drop leading and trailing whitespace. -/
def pyStrip (s : String) : String :=
  ⟨((s.data.dropWhile Char.isWhitespace).reverse.dropWhile Char.isWhitespace).reverse⟩

/-- Python `str.lower()` (ASCII-adequate model). -/
def pyLower (s : String) : String := ⟨s.data.map Char.toLower⟩

/-- `_normalize_name`: `(s or "").strip().lower()`. -/
def normalize_name (s : Option String) : String := pyLower (pyStrip (s.getD ""))

/-- The `named` sublist of `_pick_by_name`: candidates whose normalized name
is nonempty. -/
def namedOf (trails : List Trail) : List Trail :=
  trails.filter (fun t => !(normalize_name (some t.name) == ""))

/-- Step 1 of `_pick_by_name`: the first case-insensitive exact name match
among the named candidates. -/
def exactFind (trails : List Trail) (trail_name : String) : Option Trail :=
  (namedOf trails).find? (fun t =>
    normalize_name (some t.name) == normalize_name (some trail_name))

/-- Step 3 of `_pick_by_name`: the first candidate with coordinates, if any. -/
def fallbackCoords (trails : List Trail) : Option Trail :=
  (trails.filter (fun t => t.lat.isSome && t.lon.isSome)).head?

/-- `_pick_by_name` (`tools/weather_data.py` lines 74-95): `namedOf trails`
is the local `named` and its mapped names the local `names` of the source. -/
def pick_by_name (trails : List Trail) (trail_name : String) : Option Trail :=
  if trails.isEmpty then none
  else
    match exactFind trails trail_name with
    | some t => some t
    | none =>
      match getCloseMatches1 trail_name ((namedOf trails).map Trail.name) with
      | nm :: _ =>
        match (namedOf trails).find? (fun t => t.name == nm) with
        | some t => some t
        | none => fallbackCoords trails
      | [] => fallbackCoords trails

/-! ## Joiner and pipeline (`weather_for_trail`, `geocode.py`, `pipeline.py`) -/

/-- A geocoder hit with its (string-encoded, here already parsed)
coordinates. -/
structure GeoHit where
  lat : ℚ
  lon : ℚ
deriving DecidableEq

/-- The upstream HTTP endpoints, abstracted as oracles from the request
parameters the code sends to the decoded response (or an HTTP failure). -/
structure Env where
  nominatim : String → Except String (List GeoHit)
  overpassNear : ℚ → ℚ → ℤ → Except String (List Element)
  overpassBbox : ℚ → ℚ → ℚ → ℚ → Except String (List Element)
  meteo : ℚ → ℚ → ℤ → Except String MeteoData

/-- `ALBERTA_BBOX` `(S, W, N, E)`. -/
def ALBERTA_BBOX : ℚ × ℚ × ℚ × ℚ := (49, -120, 60, -110)

/-- Lines 119-129 of `weather_for_trail`: an empty candidate set, a `None`
pick and missing chosen coordinates each raise a `ValueError`
(`NotFoundError` in the spec taxonomy); on success the chosen trail and its
extracted coordinates are returned. -/
def pickByNameChecked (candidates : List Trail) (trail_name : String) :
    Except Err (Trail × ℚ × ℚ) :=
  if candidates.isEmpty then
    .error (.notFound "No trails found in the search area.")
  else
    match pick_by_name candidates trail_name with
    | none =>
      .error (.notFound ("Trail " ++ trail_name ++ " not found in Alberta (or lacks coordinates)."))
    | some chosen =>
      match chosen.lat, chosen.lon with
      | some tlat, some tlon => .ok (chosen, tlat, tlon)
      | _, _ =>
        .error (.notFound ("Trail " ++ chosen.name ++ " has no coordinates in OSM center data."))

/-- Result record of `weather_for_trail`. -/
structure JoinResult where
  trail : Trail
  forecast : SlimWeather
deriving DecidableEq

/-- The tail of `weather_for_trail` once candidates have been fetched:
name-match and coordinate checks, then the forecast call at the chosen
coordinates. -/
def wftAfter (env : Env) (trail_name : String) (hours : ℤ)
    (candidatesE : Except Err (List Trail)) : Except Err JoinResult := do
  let candidates ← candidatesE
  let (chosen, tlat, tlon) ← pickByNameChecked candidates trail_name
  let forecast ← get_weather tlat tlon hours env.meteo
  pure { trail := chosen, forecast := forecast }

/-- `weather_for_trail` (`tools/weather_data.py` lines 97-133): nearby search
only when both coordinates are supplied, otherwise the Alberta-wide bbox
search. -/
def weather_for_trail (env : Env) (trail_name : String) (hours : ℤ)
    (lat lon : Option ℚ) (radius_km : ℚ) : Except Err JoinResult :=
  match lat, lon with
  | some la, some lo =>
    wftAfter env trail_name hours (get_trails_near la lo radius_km env.overpassNear)
  | _, _ =>
    match ALBERTA_BBOX with
    | (s, w, n, e) =>
      wftAfter env trail_name hours
        (get_trails_in_bbox s w n e (env.overpassBbox s w n e)).1

/-- A geocoded coordinate. -/
structure Coordinate where
  lat : ℚ
  lon : ℚ
deriving DecidableEq

/-- `geocode_place` (`tools/geocode.py`): the region qualifier is appended to
the query; zero results raise (`NotFoundError` in the taxonomy). -/
def geocode_place (env : Env) (place : String) : Except Err Coordinate :=
  match env.nominatim (place ++ ", Alberta, Canada") with
  | .error e => .error (.upstream e)
  | .ok [] => .error (.notFound ("Could not geocode " ++ place ++ " in Alberta."))
  | .ok (r :: _) => .ok { lat := r.lat, lon := r.lon }

/-- The `place` record of a recommendation. -/
structure PlaceResult where
  name : String
  lat : ℚ
  lon : ℚ
deriving DecidableEq

/-- Result record of `recommend_near_place`. -/
structure Recommendation where
  place : PlaceResult
  trails : List Trail
  weather : SlimWeather
deriving DecidableEq

/-- Third statement of `recommend_near_place`: the weather fetch at the
geocoded coordinates, then the result record embedding the verbatim place
string. -/
def recommendStep3 (env : Env) (place : String) (hours : ℤ) (loc : Coordinate)
    (trails : List Trail) : Except Err Recommendation :=
  match get_weather loc.lat loc.lon hours env.meteo with
  | .error e => .error e
  | .ok weather =>
    .ok { place := { name := place, lat := loc.lat, lon := loc.lon },
          trails := trails, weather := weather }

/-- Second statement of `recommend_near_place`: the nearby trail fetch at
the geocoded coordinates. -/
def recommendStep2 (env : Env) (place : String) (radius_km : ℚ) (hours : ℤ)
    (loc : Coordinate) : Except Err Recommendation :=
  match get_trails_near loc.lat loc.lon radius_km env.overpassNear with
  | .error e => .error e
  | .ok trails => recommendStep3 env place hours loc trails

/-- `recommend_near_place` (`tools/pipeline.py`): geocode the place, then
fetch trails near the geocoded point, then weather at the same point,
strictly in sequence (the step functions are the Python statement sequence
with exception propagation made explicit). -/
def recommend_near_place (env : Env) (place : String) (radius_km : ℚ) (hours : ℤ) :
    Except Err Recommendation :=
  match geocode_place env place with
  | .error e => .error e
  | .ok loc => recommendStep2 env place radius_km hours loc

/-! ## Concrete fixtures used by witnesses and the counterexample -/

/-- First fixture trail of the tie-break counterexample. -/
def tAbd : Trail := ⟨some 1, some "way", "abd", none, some 51, some (-115), none, none⟩

/-- Second fixture trail of the tie-break counterexample. -/
def tAbe : Trail := ⟨some 2, some "way", "abe", none, some 52, some (-116), none, none⟩

/-- A fixture raw element with a name tag and center coordinates. -/
def elbowEl : Element :=
  ⟨some "way", some 101,
   some ⟨some "Elbow Lake Loop", none, none, none, none, none⟩,
   some ⟨some 51, some (-115)⟩⟩

/-- A fixture forecast response with four parallel 30-sample series. -/
def meteo30 : MeteoData :=
  ⟨⟨some (List.replicate 30 "t"), some (List.replicate 30 (some 1)),
    some (List.replicate 30 (some 0)), some (List.replicate 30 (some 0))⟩⟩

/-- A fixture forecast response whose temperature series contains a `null`,
which makes the summary computation raise. -/
def meteoBad : MeteoData := ⟨⟨none, some [some 1, none], none, none⟩⟩

/-- A fixture environment: a failing geocoder and fixed bodies elsewhere. -/
def envBoom : Env :=
  ⟨fun _ => .error "boom", fun _ _ _ => .ok [elbowEl], fun _ _ _ _ => .ok [],
   fun _ _ _ => .ok meteo30⟩

/-! ## Lemmas about `_normalize` -/

theorem dedupKeys_sublist (seen : List (Option String × Option Int)) (l : List Trail) :
    (dedupKeys seen l).Sublist l := by
  induction l generalizing seen with
  | nil => simp [dedupKeys]
  | cons t ts ih =>
    unfold dedupKeys
    by_cases h : trailKey t ∈ seen
    · simp only [if_pos h]
      exact List.Sublist.cons t (ih seen)
    · simp only [if_neg h]
      exact List.Sublist.cons₂ t (ih _)

theorem dedupKeys_not_seen (seen : List (Option String × Option Int)) (l : List Trail) :
    ∀ t ∈ dedupKeys seen l, trailKey t ∉ seen := by
  induction l generalizing seen with
  | nil => simp [dedupKeys]
  | cons t ts ih =>
    intro u hu
    unfold dedupKeys at hu
    by_cases h : trailKey t ∈ seen
    · rw [if_pos h] at hu
      exact ih seen u hu
    · rw [if_neg h] at hu
      rcases List.mem_cons.mp hu with rfl | hu'
      · exact h
      · intro hseen
        exact ih _ u hu' (List.mem_cons_of_mem _ hseen)

theorem dedupKeys_nodup (seen : List (Option String × Option Int)) (l : List Trail) :
    ((dedupKeys seen l).map trailKey).Nodup := by
  induction l generalizing seen with
  | nil => simp [dedupKeys]
  | cons t ts ih =>
    unfold dedupKeys
    by_cases h : trailKey t ∈ seen
    · rw [if_pos h]; exact ih seen
    · rw [if_neg h]
      simp only [List.map_cons, List.nodup_cons]
      refine ⟨?_, ih _⟩
      intro hmem
      rcases List.mem_map.mp hmem with ⟨u, hu, hk⟩
      exact dedupKeys_not_seen _ _ u hu (hk ▸ List.mem_cons_self _ _)

theorem dedupKeys_find_first (seen : List (Option String × Option Int)) (l : List Trail) :
    ∀ t ∈ dedupKeys seen l,
      l.find? (fun u => decide (trailKey u = trailKey t)) = some t := by
  induction l generalizing seen with
  | nil => simp [dedupKeys]
  | cons hd ts ih =>
    intro t ht
    unfold dedupKeys at ht
    by_cases h : trailKey hd ∈ seen
    · rw [if_pos h] at ht
      have hne : trailKey hd ≠ trailKey t := by
        intro he
        exact dedupKeys_not_seen _ _ t ht (he ▸ h)
      rw [List.find?_cons_of_neg _ (by simpa using hne)]
      exact ih seen t ht
    · rw [if_neg h] at ht
      rcases List.mem_cons.mp ht with rfl | ht'
      · rw [List.find?_cons_of_pos _ (by simp)]
      · have hne : trailKey hd ≠ trailKey t := by
          intro he
          exact dedupKeys_not_seen _ _ t ht' (he ▸ List.mem_cons_self _ _)
        rw [List.find?_cons_of_neg _ (by simpa using hne)]
        exact ih _ t ht'

theorem preNormalize_mem (els : List Element) :
    ∀ t ∈ preNormalize els, ∃ el la lo, el ∈ els ∧ t = mkTrail el la lo := by
  induction els with
  | nil => simp [preNormalize]
  | cons el rest ih =>
    intro t ht
    unfold preNormalize at ht
    rcases hla : elCenterLat el with _ | la <;> rcases hlo : elCenterLon el with _ | lo <;>
        rw [hla, hlo] at ht
    · rcases ih t ht with ⟨e, a, o, he, hte⟩
      exact ⟨e, a, o, List.mem_cons_of_mem _ he, hte⟩
    · rcases ih t ht with ⟨e, a, o, he, hte⟩
      exact ⟨e, a, o, List.mem_cons_of_mem _ he, hte⟩
    · rcases ih t ht with ⟨e, a, o, he, hte⟩
      exact ⟨e, a, o, List.mem_cons_of_mem _ he, hte⟩
    · rcases List.mem_cons.mp ht with rfl | ht'
      · exact ⟨el, la, lo, List.mem_cons_self _ _, rfl⟩
      · rcases ih t ht' with ⟨e, a, o, he, hte⟩
        exact ⟨e, a, o, List.mem_cons_of_mem _ he, hte⟩

theorem synthName_ne_empty (el : Element) : synthName el ≠ "" := by
  unfold synthName
  intro h
  have hlen := congrArg String.length h
  rw [String.length_append] at hlen
  have h0 : ("" : String).length = 0 := rfl
  by_cases hw : el.type = some "way"
  · rw [if_pos hw] at hlen
    have h4 : ("Way " : String).length = 4 := rfl
    omega
  · rw [if_neg hw] at hlen
    have h6 : ("Route " : String).length = 6 := rfl
    omega

theorem elName_ne_empty (el : Element) : elName el ≠ "" := by
  unfold elName
  split
  · split
    · exact synthName_ne_empty el
    · rename_i hs
      exact hs
  · exact synthName_ne_empty el

theorem pyNormalize_mem (els : List Element) :
    ∀ t ∈ pyNormalize els, ∃ el la lo, el ∈ els ∧ t = mkTrail el la lo := by
  intro t ht
  have h1 : t ∈ dedupKeys [] (preNormalize els) :=
    (List.take_sublist _ _).subset ht
  have h2 : t ∈ preNormalize els := (dedupKeys_sublist _ _).subset h1
  exact preNormalize_mem els t h2

/-- C1: for every raw element list, the normalized trail list has at most 20
entries, pairwise-distinct `(osm_type, id)` keys, is the first-seen
deduplication of the built list truncated to 20 after deduplication (a
sublist, so first-seen order is preserved, and each entry is the first
occurrence of its key), and `findNear` / `findInBbox` return exactly this
normalization of the upstream elements. -/
theorem findNear_findInBbox_dedup_capped (els : List Element) :
    (pyNormalize els).length ≤ 20 ∧
    ((pyNormalize els).map trailKey).Nodup ∧
    pyNormalize els = (dedupKeys [] (preNormalize els)).take 20 ∧
    (pyNormalize els).Sublist (preNormalize els) ∧
    (∀ t ∈ pyNormalize els,
      (preNormalize els).find? (fun u => decide (trailKey u = trailKey t)) = some t) ∧
    (∀ lat lon r http ts, get_trails_near lat lon r http = .ok ts →
      ∃ es, http lat lon (pyTrunc (clamp_radius_km r * 1000)) = .ok es ∧ ts = pyNormalize es) ∧
    (∀ a b c d http ts, (get_trails_in_bbox a b c d http).1 = .ok ts →
      ∃ es, http = .ok es ∧ ts = pyNormalize es) := by
  refine ⟨?_, ?_, rfl, ?_, ?_, ?_, ?_⟩
  · unfold pyNormalize
    exact List.length_take_le 20 _
  · unfold pyNormalize
    rw [List.map_take]
    exact List.Nodup.sublist (List.take_sublist _ _) (dedupKeys_nodup [] _)
  · exact (List.take_sublist _ _).trans (dedupKeys_sublist [] _)
  · intro t ht
    have h1 : t ∈ dedupKeys [] (preNormalize els) :=
      (List.take_sublist _ _).subset ht
    exact dedupKeys_find_first [] _ t h1
  · intro lat lon r http ts hok
    simp only [get_trails_near] at hok
    rcases h : http lat lon (pyTrunc (clamp_radius_km r * 1000)) with e | es <;> rw [h] at hok
    · cases hok
    · exact ⟨es, rfl, by cases hok; rfl⟩
  · intro a b c d http ts hok
    unfold get_trails_in_bbox at hok
    by_cases hv : a > c ∨ b > d
    · rw [if_pos hv] at hok; cases hok
    · rw [if_neg hv] at hok
      rcases h : http with e | es <;> rw [h] at hok
      · cases hok
      · exact ⟨es, rfl, by cases hok; rfl⟩

/-- C8: every entry of a normalized trail list has a nonempty name (the
source name tags fall back to a synthetic stable name derived from the
element type and id). -/
theorem trail_names_never_empty (els : List Element) :
    ∀ t ∈ pyNormalize els, t.name ≠ "" := by
  intro t ht
  rcases pyNormalize_mem els t ht with ⟨el, la, lo, _, rfl⟩
  exact elName_ne_empty el

/-! ## Bbox validation (C5) -/

/-- C5: `findInBbox` yields a `ValidationError` exactly when the bounds are
inverted, and in that case no outbound HTTP call is made (call counter 0). -/
theorem findInBbox_validation (min_lat min_lon max_lat max_lon : ℚ)
    (http : Except String (List Element)) :
    ((∃ msg, (get_trails_in_bbox min_lat min_lon max_lat max_lon http).1 =
        .error (.validation msg)) ↔ (min_lat > max_lat ∨ min_lon > max_lon)) ∧
    ((min_lat > max_lat ∨ min_lon > max_lon) →
      (get_trails_in_bbox min_lat min_lon max_lat max_lon http).2 = 0) := by
  unfold get_trails_in_bbox
  by_cases h : min_lat > max_lat ∨ min_lon > max_lon
  · rw [if_pos h]
    exact ⟨⟨fun _ => h, fun _ => ⟨"Invalid bbox.", rfl⟩⟩, fun _ => rfl⟩
  · rw [if_neg h]
    refine ⟨⟨?_, fun hc => absurd hc h⟩, fun hc => absurd hc h⟩
    rintro ⟨msg, hmsg⟩
    rcases http with e | es <;> simp_all

/-! ## Weather slimming (C2, C7) -/

/-- Lengths of the hourly series present in a record, in key order. -/
def presentLens (h : HourlyData) : List ℕ :=
  (h.time.map List.length).toList ++ (h.temperature_2m.map List.length).toList ++
    (h.precipitation_probability.map List.length).toList ++
    (h.precipitation.map List.length).toList

/-- Clamping twice is the same as clamping once. -/
theorem clamp_hours_idem (h : ℤ) : clamp_hours (clamp_hours h) = clamp_hours h := by
  unfold clamp_hours
  omega

/-- Truncation bounds every present series by `n` and preserves parallel
shape. -/
theorem slimHourly_lens (d : MeteoData) (n : ℕ)
    (hpar : (presentLens d.hourly).Pairwise (· = ·)) :
    (∀ m ∈ presentLens (slimHourly d n), m ≤ n) ∧
    (presentLens (slimHourly d n)).Pairwise (· = ·) := by
  rcases d with ⟨⟨ot, otemp, opp, opr⟩⟩
  cases ot <;> cases otemp <;> cases opp <;> cases opr <;>
    simp_all [presentLens, slimHourly, List.length_take, List.pairwise_cons]

/-- C2: `getWeather` clamps `hours` into `[1, 24]`; on a successful upstream
response whose hourly series are parallel (all present series of equal
length, the shape of the upstream interface), every series of the returned
slice has length at most the clamped hour count and all returned series have
equal length. -/
theorem getWeather_clamps_and_truncates (lat lon : ℚ) (hours : ℤ)
    (http : ℚ → ℚ → ℤ → Except String MeteoData) (data : MeteoData)
    (hok : http lat lon (clamp_hours hours) = .ok data)
    (hpar : (presentLens data.hourly).Pairwise (· = ·)) :
    (1 ≤ clamp_hours hours ∧ clamp_hours hours ≤ 24) ∧
    ∃ w, get_weather lat lon hours http = .ok w ∧
      (∀ n ∈ presentLens w.hourly, n ≤ (clamp_hours hours).toNat) ∧
      (presentLens w.hourly).Pairwise (· = ·) := by
  have hh : (slim_weather data (clamp_hours hours)).hourly =
      slimHourly data (clamp_hours hours).toNat := by
    have h1 : (slim_weather data (clamp_hours hours)).hourly =
        slimHourly data (clamp_hours (clamp_hours hours)).toNat := rfl
    rw [h1, clamp_hours_idem]
  constructor
  · unfold clamp_hours
    omega
  · refine ⟨slim_weather data (clamp_hours hours), ?_, ?_, ?_⟩
    · simp only [get_weather]
      rw [hok]
    · rw [hh]
      exact (slimHourly_lens data _ hpar).1
    · rw [hh]
      exact (slimHourly_lens data _ hpar).2

/-- C7: the summary block is present only when the (truncated) temperature
series is nonempty, and any failure inside the summary computation degrades
to an absent summary while the slimmed hourly series are still returned
(`_slim_weather` never fails as a whole). -/
theorem summary_only_with_temps_and_swallowed (data : MeteoData) (hours : ℤ) :
    ((slim_weather data hours).summary.isSome →
      ((slimHourly data (clamp_hours hours).toNat).temperature_2m.getD []) ≠ []) ∧
    (summaryCalc ((slimHourly data (clamp_hours hours).toNat).temperature_2m.getD [])
        ((slimHourly data (clamp_hours hours).toNat).precipitation.getD [])
        ((slimHourly data (clamp_hours hours).toNat).precipitation_probability.getD []) =
        .error () →
      (slim_weather data hours).summary = none) ∧
    (slim_weather data hours).hourly = slimHourly data (clamp_hours hours).toNat := by
  refine ⟨?_, ?_, rfl⟩
  · intro hs
    simp only [slim_weather] at hs
    by_cases he : ((slimHourly data (clamp_hours hours).toNat).temperature_2m.getD []).isEmpty
    · rw [if_pos he] at hs
      simp at hs
    · intro hnil
      rw [hnil] at he
      simp at he
  · intro herr
    simp only [slim_weather]
    by_cases he : ((slimHourly data (clamp_hours hours).toNat).temperature_2m.getD []).isEmpty
    · rw [if_pos he]
    · rw [if_neg he, herr]

/-! ## Order lemmas for the Python score-pair comparison -/

theorem lexLtCh_irrefl (l : List Char) : lexLtCh l l = false := by
  induction l with
  | nil => rfl
  | cons a as ih =>
    unfold lexLtCh
    simp [ih]

theorem lexLtCh_trans (a b c : List Char) (hab : lexLtCh a b = true)
    (hbc : lexLtCh b c = true) : lexLtCh a c = true := by
  induction a generalizing b c with
  | nil =>
    cases b with
    | nil => simp [lexLtCh] at hab
    | cons y ys =>
      cases c with
      | nil => simp [lexLtCh] at hbc
      | cons z zs => rfl
  | cons x xs ih =>
    cases b with
    | nil => simp [lexLtCh] at hab
    | cons y ys =>
      cases c with
      | nil => simp [lexLtCh] at hbc
      | cons z zs =>
        unfold lexLtCh at hab hbc ⊢
        rcases lt_trichotomy x y with hxy | hxy | hxy
        · rcases lt_trichotomy y z with hyz | hyz | hyz
          · rw [if_pos (hxy.trans hyz)]
          · subst hyz
            rw [if_pos hxy]
          · rw [if_neg (asymm hyz), if_pos hyz] at hbc
            simp at hbc
        · subst hxy
          rw [if_neg (lt_irrefl x), if_neg (lt_irrefl x)] at hab
          rcases lt_trichotomy x z with hxz | hxz | hxz
          · rw [if_pos hxz]
          · subst hxz
            rw [if_neg (lt_irrefl x), if_neg (lt_irrefl x)] at hbc ⊢
            exact ih _ _ hab hbc
          · rw [if_neg (asymm hxz), if_pos hxz] at hbc
            simp at hbc
        · rw [if_neg (asymm hxy), if_pos hxy] at hab
          simp at hab

theorem lexLtCh_eq_of_not_lt (a b : List Char) (hab : lexLtCh a b = false)
    (hba : lexLtCh b a = false) : a = b := by
  induction a generalizing b with
  | nil =>
    cases b with
    | nil => rfl
    | cons y ys => simp [lexLtCh] at hab
  | cons x xs ih =>
    cases b with
    | nil => simp [lexLtCh] at hba
    | cons y ys =>
      unfold lexLtCh at hab hba
      rcases lt_trichotomy x y with hxy | hxy | hxy
      · rw [if_pos hxy] at hab
        simp at hab
      · subst hxy
        rw [if_neg (lt_irrefl x), if_neg (lt_irrefl x)] at hab
        rw [if_neg (lt_irrefl x), if_neg (lt_irrefl x)] at hba
        rw [ih ys hab hba]
      · rw [if_pos hxy] at hba
        simp at hba

theorem pairLt_irrefl (p : ℚ × String) : ¬ pairLt p p := by
  unfold pairLt
  simp [lexLtCh_irrefl]

theorem pairLt_trans (p q r : ℚ × String) (hpq : pairLt p q) (hqr : pairLt q r) :
    pairLt p r := by
  unfold pairLt at hpq hqr ⊢
  rcases hpq with h1 | ⟨h1, h1s⟩ <;> rcases hqr with h2 | ⟨h2, h2s⟩
  · exact Or.inl (h1.trans h2)
  · exact Or.inl (h2 ▸ h1)
  · exact Or.inl (h1 ▸ h2)
  · exact Or.inr ⟨h1.trans h2, lexLtCh_trans _ _ _ h1s h2s⟩

theorem pairLt_resolve (p q : ℚ × String) (h : ¬ pairLt p q) : pairLt q p ∨ q = p := by
  unfold pairLt at h ⊢
  rcases lt_trichotomy p.1 q.1 with h1 | h1 | h1
  · exact absurd (Or.inl h1) h
  · by_cases hqp : lexLtCh q.2.data p.2.data = true
    · exact Or.inl (Or.inr ⟨h1.symm, hqp⟩)
    · by_cases hpq : lexLtCh p.2.data q.2.data = true
      · exact absurd (Or.inr ⟨h1, hpq⟩) h
      · simp only [Bool.not_eq_true] at hpq hqp
        have hdata := lexLtCh_eq_of_not_lt _ _ hpq hqp
        have hstr : p.2 = q.2 := congrArg String.mk hdata
        exact Or.inr (Prod.ext h1.symm hstr.symm)
  · exact Or.inl (Or.inl h1)

/-- The chooser fold of `nlargest1` returns an element of the list. -/
theorem pickFold_mem (ps : List (ℚ × String)) (p : ℚ × String) :
    ps.foldl (fun best c => if pairLt best c then c else best) p ∈ p :: ps := by
  induction ps generalizing p with
  | nil => exact List.mem_cons_self _ _
  | cons c cs ih =>
    rw [List.foldl_cons]
    by_cases h : pairLt p c
    · rw [if_pos h]
      exact List.mem_cons_of_mem _ (ih c)
    · rw [if_neg h]
      rcases List.mem_cons.mp (ih p) with hh | hh
      · rw [hh]
        exact List.mem_cons_self _ _
      · exact List.mem_cons_of_mem _ (List.mem_cons_of_mem _ hh)

/-- No list element is strictly greater than the fold result: the fold
computes a maximum under the Python tuple order. -/
theorem pickFold_max (ps : List (ℚ × String)) (p : ℚ × String) :
    ∀ x ∈ p :: ps, ¬ pairLt (ps.foldl (fun best c => if pairLt best c then c else best) p) x := by
  induction ps generalizing p with
  | nil =>
    intro x hx
    rcases List.mem_cons.mp hx with rfl | hx
    · exact pairLt_irrefl x
    · cases hx
  | cons c cs ih =>
    intro x hx
    rw [List.foldl_cons]
    by_cases h : pairLt p c
    · rw [if_pos h]
      rcases List.mem_cons.mp hx with rfl | hx'
      · intro hcon
        exact ih c c (List.mem_cons_self _ _) (pairLt_trans _ _ _ hcon h)
      · exact ih c x hx'
    · rw [if_neg h]
      rcases List.mem_cons.mp hx with rfl | hx'
      · exact ih x x (List.mem_cons_self _ _)
      · rcases List.mem_cons.mp hx' with rfl | hx''
        · intro hcon
          rcases pairLt_resolve p x h with hlt | heq
          · exact ih p p (List.mem_cons_self _ _) (pairLt_trans _ _ _ hcon hlt)
          · exact ih p p (List.mem_cons_self _ _) (heq ▸ hcon)
        · exact ih p x (List.mem_cons_of_mem _ hx'')

/-! ## Lemmas about `get_close_matches` and `_pick_by_name` -/

theorem nlargest1_spec (l : List (ℚ × String)) (m : ℚ × String)
    (h : nlargest1 l = some m) : m ∈ l ∧ ∀ x ∈ l, ¬ pairLt m x := by
  cases l with
  | nil => cases h
  | cons p ps =>
    unfold nlargest1 at h
    obtain rfl := Option.some.inj h
    exact ⟨pickFold_mem ps p, pickFold_max ps p⟩

theorem nlargest1_isSome (l : List (ℚ × String)) (hne : l ≠ []) :
    (nlargest1 l).isSome := by
  cases l with
  | nil => exact absurd rfl hne
  | cons p ps => rfl

theorem mem_fuzzyPairs (word : String) (names : List String) (r : ℚ) (x : String) :
    (r, x) ∈ fuzzyPairs word names ↔
      x ∈ names ∧ r = ratioQ x word ∧ (3 : ℚ)/5 ≤ ratioQ x word := by
  unfold fuzzyPairs
  rw [List.mem_filterMap]
  constructor
  · rintro ⟨a, ha, hfa⟩
    by_cases hge : (3 : ℚ)/5 ≤ ratioQ a word
    · rw [if_pos hge] at hfa
      simp only [Option.some.injEq, Prod.mk.injEq] at hfa
      obtain ⟨h1, rfl⟩ := hfa
      exact ⟨ha, h1.symm, hge⟩
    · rw [if_neg hge] at hfa
      cases hfa
  · rintro ⟨hx, rfl, hge⟩
    exact ⟨x, hx, by rw [if_pos hge]⟩

theorem fuzzyPairs_nil (word : String) (names : List String)
    (h : ∀ x ∈ names, ratioQ x word < 3/5) : fuzzyPairs word names = [] := by
  unfold fuzzyPairs
  rw [List.filterMap_eq_nil_iff]
  intro a ha
  rw [if_neg (not_le.mpr (h a ha))]

theorem fallbackCoords_mem (trails : List Trail) (t : Trail)
    (h : fallbackCoords trails = some t) : t ∈ trails := by
  unfold fallbackCoords at h
  rcases hl : trails.filter (fun t => t.lat.isSome && t.lon.isSome) with _ | ⟨x, xs⟩ <;>
    rw [hl] at h
  · cases h
  · obtain rfl := Option.some.inj h
    exact List.mem_of_mem_filter (hl ▸ List.mem_cons_self x xs)

/-- Branch reduction: success of step 1 decides `_pick_by_name`. -/
theorem pick_by_name_exact (trails : List Trail) (nm : String) (t : Trail)
    (hne : trails.isEmpty = false) (hex : exactFind trails nm = some t) :
    pick_by_name trails nm = some t := by
  unfold pick_by_name
  rw [if_neg (by simp [hne]), hex]

/-- Branch reduction: with step 1 failed and a fuzzy winner found in the
named list, `_pick_by_name` returns the first named candidate bearing the
winning name. -/
theorem pick_by_name_fuzzy (trails : List Trail) (nm nm2 : String)
    (rest : List String) (t : Trail) (hne : trails.isEmpty = false)
    (hex : exactFind trails nm = none)
    (hgc : getCloseMatches1 nm ((namedOf trails).map Trail.name) = nm2 :: rest)
    (hf : (namedOf trails).find? (fun u => u.name == nm2) = some t) :
    pick_by_name trails nm = some t := by
  unfold pick_by_name
  rw [if_neg (by simp [hne]), hex, hgc]
  show (match (namedOf trails).find? (fun u => u.name == nm2) with
        | some u => some u
        | none => fallbackCoords trails) = some t
  rw [hf]

/-- Branch reduction: fuzzy winner not found back in the named list (an
impossible case in practice) falls through to step 3. -/
theorem pick_by_name_fuzzy_none (trails : List Trail) (nm nm2 : String)
    (rest : List String) (hne : trails.isEmpty = false)
    (hex : exactFind trails nm = none)
    (hgc : getCloseMatches1 nm ((namedOf trails).map Trail.name) = nm2 :: rest)
    (hf : (namedOf trails).find? (fun u => u.name == nm2) = none) :
    pick_by_name trails nm = fallbackCoords trails := by
  unfold pick_by_name
  rw [if_neg (by simp [hne]), hex, hgc]
  show (match (namedOf trails).find? (fun u => u.name == nm2) with
        | some u => some u
        | none => fallbackCoords trails) = fallbackCoords trails
  rw [hf]

/-- Branch reduction: with steps 1 and 2 failed, `_pick_by_name` falls back
to the first candidate with coordinates. -/
theorem pick_by_name_fallback (trails : List Trail) (nm : String)
    (hne : trails.isEmpty = false) (hex : exactFind trails nm = none)
    (hgc : getCloseMatches1 nm ((namedOf trails).map Trail.name) = []) :
    pick_by_name trails nm = fallbackCoords trails := by
  unfold pick_by_name
  rw [if_neg (by simp [hne]), hex, hgc]

theorem pick_by_name_mem (trails : List Trail) (nm : String) (t : Trail)
    (h : pick_by_name trails nm = some t) : t ∈ trails := by
  by_cases he : trails.isEmpty
  · unfold pick_by_name at h
    rw [if_pos he] at h
    cases h
  · have hne : trails.isEmpty = false := by simpa using he
    rcases hex : exactFind trails nm with _ | u
    · rcases hgc : getCloseMatches1 nm ((namedOf trails).map Trail.name) with _ | ⟨nm2, rest⟩
      · rw [pick_by_name_fallback trails nm hne hex hgc] at h
        exact fallbackCoords_mem trails t h
      · rcases hf : (namedOf trails).find? (fun u => u.name == nm2) with _ | u2
        · rw [pick_by_name_fuzzy_none trails nm nm2 rest hne hex hgc hf] at h
          exact fallbackCoords_mem trails t h
        · rw [pick_by_name_fuzzy trails nm nm2 rest u2 hne hex hgc hf] at h
          obtain rfl := Option.some.inj h
          exact List.mem_of_mem_filter (List.mem_of_find?_eq_some hf)
    · rw [pick_by_name_exact trails nm u hne hex] at h
      obtain rfl := Option.some.inj h
      exact List.mem_of_mem_filter (List.mem_of_find?_eq_some hex)

/-- Branch reduction for the joiner check once a candidate is picked. -/
theorem pickByNameChecked_some (candidates : List Trail) (nm : String) (chosen : Trail)
    (hne : candidates.isEmpty = false) (hp : pick_by_name candidates nm = some chosen) :
    pickByNameChecked candidates nm =
      (match chosen.lat, chosen.lon with
       | some tlat, some tlon => .ok (chosen, tlat, tlon)
       | _, _ =>
         .error (.notFound ("Trail " ++ chosen.name ++ " has no coordinates in OSM center data."))) := by
  unfold pickByNameChecked
  rw [if_neg (by simp [hne]), hp]

/-- C4: the joiner pick fails with a `NotFoundError` whenever the candidate
list is empty or no candidate has resolvable coordinates (in particular on
`pickByName([], "anything")`). -/
theorem pickByName_notFound_on_empty_or_no_coords (candidates : List Trail)
    (nm : String)
    (h : candidates = [] ∨ ∀ t ∈ candidates, t.lat = none ∨ t.lon = none) :
    ∃ msg, pickByNameChecked candidates nm = .error (.notFound msg) := by
  by_cases hemp : candidates.isEmpty
  · refine ⟨"No trails found in the search area.", ?_⟩
    unfold pickByNameChecked
    rw [if_pos hemp]
  · have hne : candidates.isEmpty = false := by simpa using hemp
    have hcoords : ∀ t ∈ candidates, t.lat = none ∨ t.lon = none := by
      rcases h with rfl | h
      · simp at hemp
      · exact h
    rcases hp : pick_by_name candidates nm with _ | chosen
    · refine ⟨"Trail " ++ nm ++ " not found in Alberta (or lacks coordinates).", ?_⟩
      unfold pickByNameChecked
      rw [if_neg (by simp [hne]), hp]
    · refine ⟨"Trail " ++ chosen.name ++ " has no coordinates in OSM center data.", ?_⟩
      rw [pickByNameChecked_some candidates nm chosen hne hp]
      rcases hcoords chosen (pick_by_name_mem candidates nm chosen hp) with hla | hlo
      · rw [hla]
      · rw [hlo]
        rcases hla2 : chosen.lat with _ | la <;> rfl

/-- Trails produced by normalization always carry coordinates. -/
theorem pyNormalize_coords (els : List Element) :
    ∀ t ∈ pyNormalize els, t.lat.isSome ∧ t.lon.isSome := by
  intro t ht
  rcases pyNormalize_mem els t ht with ⟨el, la, lo, _, rfl⟩
  exact ⟨rfl, rfl⟩

/-- C9: on any nonempty list of normalized trail features the joiner pick
always succeeds: the "no candidate has resolvable coordinates" failure
branch is unreachable because normalization drops elements without center
coordinates. -/
theorem pickByName_total_on_finder_output (els : List Element) (nm : String)
    (hne : pyNormalize els ≠ []) :
    ∃ t la lo, pickByNameChecked (pyNormalize els) nm = .ok (t, la, lo) := by
  have hcoords := pyNormalize_coords els
  have hemp : (pyNormalize els).isEmpty = false := by
    rcases hl : pyNormalize els with _ | ⟨a, as⟩
    · exact absurd hl hne
    · rfl
  have hfilter : (pyNormalize els).filter (fun t => t.lat.isSome && t.lon.isSome) =
      pyNormalize els := by
    rw [List.filter_eq_self]
    intro a ha
    have h2 := hcoords a ha
    simp [h2.1, h2.2]
  have hfb : ∃ u, fallbackCoords (pyNormalize els) = some u := by
    unfold fallbackCoords
    rw [hfilter]
    rcases hl : pyNormalize els with _ | ⟨a, as⟩
    · exact absurd hl hne
    · exact ⟨a, rfl⟩
  have hsome : ∃ chosen, pick_by_name (pyNormalize els) nm = some chosen := by
    rcases hex : exactFind (pyNormalize els) nm with _ | u
    · rcases hgc : getCloseMatches1 nm ((namedOf (pyNormalize els)).map Trail.name) with
        _ | ⟨nm2, rest⟩
      · rcases hfb with ⟨u, hu⟩
        exact ⟨u, (pick_by_name_fallback _ nm hemp hex hgc).trans hu⟩
      · rcases hf : (namedOf (pyNormalize els)).find? (fun u => u.name == nm2) with _ | u2
        · rcases hfb with ⟨u, hu⟩
          exact ⟨u, (pick_by_name_fuzzy_none _ nm nm2 rest hemp hex hgc hf).trans hu⟩
        · exact ⟨u2, pick_by_name_fuzzy _ nm nm2 rest u2 hemp hex hgc hf⟩
    · exact ⟨u, pick_by_name_exact _ nm u hemp hex⟩
  rcases hsome with ⟨chosen, hp⟩
  obtain ⟨hla, hlo⟩ := hcoords chosen (pick_by_name_mem _ nm chosen hp)
  rcases hla2 : chosen.lat with _ | la
  · rw [hla2] at hla
    cases hla
  rcases hlo2 : chosen.lon with _ | lo
  · rw [hlo2] at hlo
    cases hlo
  refine ⟨chosen, la, lo, ?_⟩
  rw [pickByNameChecked_some _ nm chosen hemp hp, hla2, hlo2]

theorem isEmpty_false_of_mem {α : Type} {l : List α} {a : α} (h : a ∈ l) :
    l.isEmpty = false := by
  cases l with
  | nil => cases h
  | cons x xs => rfl

/-- C3 (amended): `pickByName` resolves in order: (1) the first
case-insensitive exact name match; (2) otherwise the fuzzy closest named
candidate with similarity ratio at least 0.6, where ties are broken by
Python's tuple comparison of `(ratio, name)` — the greatest name in
code-point order wins, not the first seen — and the first candidate in
list order bearing the winning name is returned; (3) otherwise the first
candidate in list order with non-null coordinates, regardless of name. -/
theorem pick_by_name_resolution (trails : List Trail) (word : String) :
    (∀ t, exactFind trails word = some t → pick_by_name trails word = some t) ∧
    (exactFind trails word = none →
      ∀ t ∈ namedOf trails, (3 : ℚ)/5 ≤ ratioQ t.name word →
      ∃ tb, pick_by_name trails word = some tb ∧ tb ∈ namedOf trails ∧
        (3 : ℚ)/5 ≤ ratioQ tb.name word ∧
        (∀ u ∈ namedOf trails, (3 : ℚ)/5 ≤ ratioQ u.name word →
          ¬ pairLt (ratioQ tb.name word, tb.name) (ratioQ u.name word, u.name)) ∧
        (namedOf trails).find? (fun u => u.name == tb.name) = some tb) ∧
    (exactFind trails word = none →
      (∀ t ∈ namedOf trails, ratioQ t.name word < 3/5) →
      pick_by_name trails word = fallbackCoords trails) := by
  refine ⟨?_, ?_, ?_⟩
  · intro t hex
    have hne : trails.isEmpty = false :=
      isEmpty_false_of_mem (List.mem_of_mem_filter (List.mem_of_find?_eq_some hex))
    exact pick_by_name_exact trails word t hne hex
  · intro hex t ht hge
    have hne : trails.isEmpty = false :=
      isEmpty_false_of_mem (List.mem_of_mem_filter ht)
    have hmemPair : (ratioQ t.name word, t.name) ∈
        fuzzyPairs word ((namedOf trails).map Trail.name) :=
      (mem_fuzzyPairs word _ _ _).mpr ⟨List.mem_map_of_mem Trail.name ht, rfl, hge⟩
    have hpairsne : fuzzyPairs word ((namedOf trails).map Trail.name) ≠ [] := by
      intro h0
      rw [h0] at hmemPair
      cases hmemPair
    obtain ⟨m, hm⟩ := Option.isSome_iff_exists.mp (nlargest1_isSome _ hpairsne)
    obtain ⟨hmmem, hmmax⟩ := nlargest1_spec _ m hm
    obtain ⟨hnames, hr, hge2⟩ := (mem_fuzzyPairs word _ m.1 m.2).mp (by rwa [Prod.mk.eta])
    obtain ⟨u, hu, hun⟩ := List.mem_map.mp hnames
    have hfind : ((namedOf trails).find? (fun v => v.name == m.2)).isSome :=
      List.find?_isSome.mpr ⟨u, hu, by simp [hun]⟩
    obtain ⟨tb, htb⟩ := Option.isSome_iff_exists.mp hfind
    have htbmem := List.mem_of_find?_eq_some htb
    have htbname : tb.name = m.2 := by simpa using List.find?_some htb
    have hgc : getCloseMatches1 word ((namedOf trails).map Trail.name) = [m.2] := by
      unfold getCloseMatches1
      rw [hm]
    have hkey : (ratioQ tb.name word, tb.name) = m := by
      rw [htbname, ← hr]
    refine ⟨tb, pick_by_name_fuzzy trails word m.2 [] tb hne hex hgc htb, htbmem, ?_, ?_, ?_⟩
    · rw [htbname]
      exact hr ▸ hge2
    · intro v hv hvge
      have hvpair : (ratioQ v.name word, v.name) ∈
          fuzzyPairs word ((namedOf trails).map Trail.name) :=
        (mem_fuzzyPairs word _ _ _).mpr ⟨List.mem_map_of_mem Trail.name hv, rfl, hvge⟩
      rw [hkey]
      exact hmmax _ hvpair
    · rw [htbname]
      exact htb
  · intro hex hall
    by_cases he : trails.isEmpty
    · have h0 : trails = [] := List.isEmpty_iff.mp he
      subst h0
      rfl
    · have hne : trails.isEmpty = false := by simpa using he
      have hfp : fuzzyPairs word ((namedOf trails).map Trail.name) = [] := by
        refine fuzzyPairs_nil word _ ?_
        intro x hx
        obtain ⟨v, hv, rfl⟩ := List.mem_map.mp hx
        exact hall v hv
      have hgc : getCloseMatches1 word ((namedOf trails).map Trail.name) = [] := by
        unfold getCloseMatches1
        rw [hfp]
        rfl
      exact pick_by_name_fallback trails word hne hex hgc

theorem matchSum_abd : matchSum "abd".data "abc".data = 2 := by decide

theorem matchSum_abe : matchSum "abe".data "abc".data = 2 := by decide

theorem ratioQ_abd : ratioQ "abd" "abc" = 2/3 := by
  unfold ratioQ
  rw [matchSum_abd, show ("abd".data.length = 3) from rfl,
    show ("abc".data.length = 3) from rfl]
  norm_num

theorem ratioQ_abe : ratioQ "abe" "abc" = 2/3 := by
  unfold ratioQ
  rw [matchSum_abe, show ("abe".data.length = 3) from rfl,
    show ("abc".data.length = 3) from rfl]
  norm_num

/-- C3 counterexample: with candidates named "abd" then "abe" and query
"abc", there is no exact match, both names score the same ratio 2/3 which
passes the 0.6 cutoff, yet `_pick_by_name` returns the second candidate
"abe" — the tie is not broken by first-seen order. -/
theorem pick_by_name_tie_not_first_seen :
    exactFind [tAbd, tAbe] "abc" = none ∧
    ratioQ tAbd.name "abc" = ratioQ tAbe.name "abc" ∧
    (3 : ℚ)/5 ≤ ratioQ tAbd.name "abc" ∧
    pick_by_name [tAbd, tAbe] "abc" = some tAbe ∧
    pick_by_name [tAbd, tAbe] "abc" ≠ some tAbd := by
  have hex : exactFind [tAbd, tAbe] "abc" = none := by decide
  have hfp : fuzzyPairs "abc" ["abd", "abe"] = [((2:ℚ)/3, "abd"), ((2:ℚ)/3, "abe")] := by
    unfold fuzzyPairs
    rw [List.filterMap_cons, List.filterMap_cons, List.filterMap_nil]
    rw [ratioQ_abd, ratioQ_abe]
    norm_num
  have hplt : pairLt ((2:ℚ)/3, "abd") ((2:ℚ)/3, "abe") := Or.inr ⟨rfl, by decide⟩
  have hnl : nlargest1 [((2:ℚ)/3, "abd"), ((2:ℚ)/3, "abe")] = some ((2:ℚ)/3, "abe") := by
    unfold nlargest1
    show some (List.foldl (fun best c => if pairLt best c then c else best)
      ((2:ℚ)/3, "abd") [((2:ℚ)/3, "abe")]) = some ((2:ℚ)/3, "abe")
    rw [List.foldl_cons, List.foldl_nil, if_pos hplt]
  have hnames : (namedOf [tAbd, tAbe]).map Trail.name = ["abd", "abe"] := by decide
  have hgc : getCloseMatches1 "abc" ((namedOf [tAbd, tAbe]).map Trail.name) = ["abe"] := by
    unfold getCloseMatches1
    rw [hnames, hfp, hnl]
  have hfind : (namedOf [tAbd, tAbe]).find? (fun u => u.name == "abe") = some tAbe := by
    decide
  have hpk : pick_by_name [tAbd, tAbe] "abc" = some tAbe :=
    pick_by_name_fuzzy [tAbd, tAbe] "abc" "abe" [] tAbe rfl hex hgc hfind
  refine ⟨hex, by rw [show tAbd.name = "abd" from rfl, show tAbe.name = "abe" from rfl,
    ratioQ_abd, ratioQ_abe], by rw [show tAbd.name = "abd" from rfl, ratioQ_abd]; norm_num,
    hpk, ?_⟩
  intro hcon
  rw [hpk] at hcon
  have heq := Option.some.inj hcon
  have hname := congrArg Trail.name heq
  exact absurd hname (by decide)

/-! ## Joiner coordinate paths (C10) and pipeline composition (C6) -/

/-- C10: `weatherForTrail` takes the nearby-search path exactly when both
coordinates are supplied; with exactly one coordinate supplied the call
behaves identically to supplying none — the partial coordinate is silently
ignored and the Alberta-wide bbox search is used. -/
theorem weatherForTrail_coord_paths (env : Env) (nm : String) (hours : ℤ)
    (r : ℚ) (lat lon : Option ℚ) (la lo : ℚ) :
    (weather_for_trail env nm hours (some la) (some lo) r =
      wftAfter env nm hours (get_trails_near la lo r env.overpassNear)) ∧
    (lat.isSome ≠ lon.isSome →
      weather_for_trail env nm hours lat lon r =
        weather_for_trail env nm hours none none r) ∧
    (weather_for_trail env nm hours none none r =
      wftAfter env nm hours
        (get_trails_in_bbox 49 (-120) 60 (-110) (env.overpassBbox 49 (-120) 60 (-110))).1) := by
  refine ⟨rfl, ?_, rfl⟩
  intro hx
  rcases lat with _ | a <;> rcases lon with _ | b
  · rfl
  · rfl
  · rfl
  · exact absurd rfl hx

/-- C6: `recommendNearPlace` composes geocode, nearby trail search at the
geocoded coordinates, and weather at the same coordinates, strictly in
sequence; any component failure propagates unmodified with no partial
result, and on success the result embeds the verbatim place string. -/
theorem recommendNearPlace_composes (env : Env) (place : String) (r : ℚ) (h : ℤ) :
    (∀ err, geocode_place env place = .error err →
      recommend_near_place env place r h = .error err) ∧
    (∀ loc err, geocode_place env place = .ok loc →
      get_trails_near loc.lat loc.lon r env.overpassNear = .error err →
      recommend_near_place env place r h = .error err) ∧
    (∀ loc trails err, geocode_place env place = .ok loc →
      get_trails_near loc.lat loc.lon r env.overpassNear = .ok trails →
      get_weather loc.lat loc.lon h env.meteo = .error err →
      recommend_near_place env place r h = .error err) ∧
    (∀ loc trails weather, geocode_place env place = .ok loc →
      get_trails_near loc.lat loc.lon r env.overpassNear = .ok trails →
      get_weather loc.lat loc.lon h env.meteo = .ok weather →
      recommend_near_place env place r h =
        .ok { place := { name := place, lat := loc.lat, lon := loc.lon },
              trails := trails, weather := weather }) := by
  refine ⟨?_, ?_, ?_, ?_⟩
  · intro err hgeo
    unfold recommend_near_place
    rw [hgeo]
  · intro loc err hgeo htr
    unfold recommend_near_place
    rw [hgeo]
    show recommendStep2 env place r h loc = .error err
    unfold recommendStep2
    rw [htr]
  · intro loc trails err hgeo htr hwe
    unfold recommend_near_place
    rw [hgeo]
    show recommendStep2 env place r h loc = .error err
    unfold recommendStep2
    rw [htr]
    show recommendStep3 env place h loc trails = .error err
    unfold recommendStep3
    rw [hwe]
  · intro loc trails weather hgeo htr hwe
    unfold recommend_near_place
    rw [hgeo]
    show recommendStep2 env place r h loc =
      .ok { place := { name := place, lat := loc.lat, lon := loc.lon },
            trails := trails, weather := weather }
    unfold recommendStep2
    rw [htr]
    show recommendStep3 env place h loc trails =
      .ok { place := { name := place, lat := loc.lat, lon := loc.lon },
            trails := trails, weather := weather }
    unfold recommendStep3
    rw [hwe]

/-! ## Witnesses: each applies its claim theorem at concrete inputs -/

/-- Witness for C1 on a duplicated raw element. -/
theorem findNear_findInBbox_dedup_capped_witness :
    (pyNormalize [elbowEl, elbowEl]).length ≤ 20 ∧
    (preNormalize [elbowEl, elbowEl]).find?
      (fun u => decide (trailKey u = trailKey (mkTrail elbowEl 51 (-115)))) =
      some (mkTrail elbowEl 51 (-115)) :=
  ⟨(findNear_findInBbox_dedup_capped [elbowEl, elbowEl]).1,
   (findNear_findInBbox_dedup_capped [elbowEl, elbowEl]).2.2.2.2.1 _ (by
      rw [show pyNormalize [elbowEl, elbowEl] = [mkTrail elbowEl 51 (-115)] from rfl]
      exact List.mem_cons_self _ _)⟩

/-- Witness for C2 at `hours = 48` with a parallel 30-sample response:
the clamp examples of the spec and the truncation to 24. -/
theorem getWeather_clamps_and_truncates_witness :
    (1 ≤ clamp_hours 48 ∧ clamp_hours 48 ≤ 24) ∧
    ∃ w, get_weather 51 (-115) 48 envBoom.meteo = .ok w ∧
      (∀ n ∈ presentLens w.hourly, n ≤ (clamp_hours 48).toNat) ∧
      (presentLens w.hourly).Pairwise (· = ·) :=
  getWeather_clamps_and_truncates 51 (-115) 48 envBoom.meteo meteo30 rfl (by decide)

/-- Witness for the amended C3 at an exact case-insensitive match. -/
theorem pick_by_name_resolution_witness :
    pick_by_name [tAbd] "ABD" = some tAbd :=
  (pick_by_name_resolution [tAbd] "ABD").1 tAbd rfl

/-- Witness for C4: the empty candidate list fails with `NotFoundError`. -/
theorem pickByName_notFound_witness :
    ∃ msg, pickByNameChecked [] "anything" = .error (.notFound msg) :=
  pickByName_notFound_on_empty_or_no_coords [] "anything" (Or.inl rfl)

/-- Witness for C5 at the inverted bounds of the spec example. -/
theorem findInBbox_validation_witness :
    (∃ msg, (get_trails_in_bbox 55 (-120) 50 (-110) (.ok [])).1 =
      .error (.validation msg)) ∧
    (get_trails_in_bbox 55 (-120) 50 (-110) (.ok [])).2 = 0 :=
  ⟨(findInBbox_validation 55 (-120) 50 (-110) (.ok [])).1.mpr (Or.inl (by norm_num)),
   (findInBbox_validation 55 (-120) 50 (-110) (.ok [])).2 (Or.inl (by norm_num))⟩

/-- Witness for C6: a geocoder failure propagates unmodified. -/
theorem recommendNearPlace_composes_witness :
    recommend_near_place envBoom "Canmore" 12 12 = .error (.upstream "boom") :=
  (recommendNearPlace_composes envBoom "Canmore" 12 12).1 (.upstream "boom") rfl

/-- Witness for C7: a `null` temperature sample makes the summary
computation fail, which degrades to an absent summary with the hourly
series intact. -/
theorem summary_swallowed_witness :
    (slim_weather meteoBad 5).summary = none ∧
    (slim_weather meteoBad 5).hourly = slimHourly meteoBad (clamp_hours 5).toNat :=
  ⟨(summary_only_with_temps_and_swallowed meteoBad 5).2.1 rfl,
   (summary_only_with_temps_and_swallowed meteoBad 5).2.2⟩

/-- Witness for C8 on a concrete normalized element. -/
theorem trail_names_never_empty_witness :
    (mkTrail elbowEl 51 (-115)).name ≠ "" :=
  trail_names_never_empty [elbowEl] _ (by
    rw [show pyNormalize [elbowEl] = [mkTrail elbowEl 51 (-115)] from rfl]
    exact List.mem_cons_self _ _)

/-- Witness for C9 on a concrete nonempty finder output. -/
theorem pickByName_total_witness :
    ∃ t la lo, pickByNameChecked (pyNormalize [elbowEl]) "anything" = .ok (t, la, lo) :=
  pickByName_total_on_finder_output [elbowEl] "anything" (by
    rw [show pyNormalize [elbowEl] = [mkTrail elbowEl 51 (-115)] from rfl]
    simp)

/-- Witness for C10: supplying only a latitude behaves exactly like
supplying no coordinates. -/
theorem weatherForTrail_coord_paths_witness :
    weather_for_trail envBoom "t" 24 (some 51) none 15 =
      weather_for_trail envBoom "t" 24 none none 15 :=
  (weatherForTrail_coord_paths envBoom "t" 24 15 (some 51) none 51 51).2.1 (by decide)

end TrailMate
